import Mathlib

/-!
# Verification of the Tatodetect n-gram database generator

Shallow embedding of `src/tools/generate.py`: the streaming n-gram counting
phase (`RawTatodetectDB.count` with its adaptive memory-calibrated flushing),
the merge-add flush write (`RawTatodetectDB._upsert_ngram_hits`), the key
content extraction (`TatodetectDB.extract_key_content_from`) and the blacklist
loading (`get_sentences_with_tag`).

Modelling conventions:
* A corpus line is a `List Char` (Python strings are sequences of unicode
  code points; `len` and slicing are character based).
* The in-memory accumulator `lang_ngram_cnt` (a nested dict mapping
  `lang → ngram → count`) and each sqlite `grams{n}` table (one row per
  `(gram, lang)` key with a `hit` column) are represented as a
  `Multiset (List Char × List Char)`: the multiplicity of `(lang, gram)` is
  the stored count.  A key is "present" in the dict iff its multiplicity is
  positive (the Python dict never holds a zero count: entries are only
  created by `+= 1`).  The sqlite upsert
  `INSERT … ON CONFLICT (gram, lang) DO UPDATE SET hit = hit + :hits`
  is then multiset addition.
* `user_lang_score` (dict mapping `(user, lang) → sum of len(text)`) is a
  `Multiset (List Char × List Char)` in the same way: the score is the
  multiplicity of `(user, lang)`.
* Python exceptions that are not caught are modelled with `Except String`:
  an `.error` value means the process aborts with that uncaught exception.
  Note that the `except IndexError` handlers in the source are dead code:
  tuple unpacking of a too-short list and `int()` on a non-numeric string
  raise `ValueError`, and `open()` on a missing path raises
  `FileNotFoundError`, none of which `except IndexError` catches.
* The external peak-memory probe `get_peak_memory_usage()` is an oracle
  `mem : Nat → Nat` consumed one value per call; the state records the
  number of calls made so far.
* SQL `FLOAT` arithmetic in the extraction query is modelled with exact
  rationals `ℚ`.
-/

namespace Tatodetect

/-- Decidable equality for `Except`, used to evaluate the model on concrete
corpora. -/
instance instDecEqExcept {ε α : Type} [DecidableEq ε] [DecidableEq α] :
    DecidableEq (Except ε α) := fun x y =>
  match x, y with
  | .error e, .error f =>
    if h : e = f then .isTrue (by rw [h]) else .isFalse (by simp [h])
  | .error _, .ok _ => .isFalse (by simp)
  | .ok _, .error _ => .isFalse (by simp)
  | .ok a, .ok b =>
    if h : a = b then .isTrue (by rw [h]) else .isFalse (by simp [h])

/-- Languages that do not use an alphabet (src/tools/generate.py line 12). -/
def IDEOGRAM_LANGS : List String := ["wuu", "yue", "cmn"]

/-- Relative-frequency cutoff for ideogram languages (line 13). -/
def IDEOGRAM_NGRAM_FREQ_LIMIT : ℚ := 5 / 1000000

/-- Relative-frequency cutoff for all other languages (line 14). -/
def NGRAM_FREQ_LIMIT : ℚ := 1 / 100000

/-- Minimum number of characters a user must have submitted in one language
to be a key contributor (line 18). -/
def MIN_USER_CONTRIB_IN_LANG : Nat := 100

/-- Minimum n-gram size (line 20). -/
def MIN_NGRAM_SIZE : Nat := 2

/-- Maximum n-gram size (line 21). -/
def MAX_NGRAM_SIZE : Nat := 5

/-- Python `range(start, stop, -1)` restricted to naturals: the descending
sizes `start, start-1, …, stop+1`. -/
def pyRangeDown (start stop : Nat) : List Nat :=
  (List.range (start - stop)).map (fun i => start - i)

/-- The n-gram sizes of the successive passes of `RawTatodetectDB.count`:
`range(MAX_NGRAM_SIZE, MIN_NGRAM_SIZE - 1, -1)` (line 96). -/
def passSizes : List Nat := pyRangeDown MAX_NGRAM_SIZE (MIN_NGRAM_SIZE - 1)

/-- Characters stripped by Python `str.rstrip()` (the ASCII whitespace;
non-ASCII unicode whitespace is not modelled, no claim depends on it). -/
def pySpace (c : Char) : Bool :=
  c = ' ' || c = '\t' || c = '\n' || c = '\r' || c = '\x0b' || c = '\x0c'

/-- Python `str.rstrip()`: drop trailing whitespace. -/
def pyRstrip (cs : List Char) : List Char :=
  (cs.reverse.dropWhile pySpace).reverse

/-- Python `str.strip()`: drop whitespace on both sides (used by `int`). -/
def pyStrip (cs : List Char) : List Char :=
  ((cs.dropWhile pySpace).reverse.dropWhile pySpace).reverse

/-- Python `str.split("\t")`: split on every tab, keeping empty fields
(`"".split("\t") == [""]`). -/
def splitTab : List Char → List (List Char)
  | [] => [[]]
  | c :: rest =>
    if c = '\t' then [] :: splitTab rest
    else match splitTab rest with
      | [] => [[c]]
      | f :: fs => (c :: f) :: fs

/-- Decimal value of a digit string. -/
def digitsVal (ds : List Char) : Nat :=
  ds.foldl (fun a c => a * 10 + (c.toNat - '0'.toNat)) 0

/-- Python `int(s)`: strip whitespace, optional sign, then a nonempty run of
decimal digits; anything else raises `ValueError`, modelled as `none`.
(Underscore digit separators and non-ASCII digits are not modelled; no claim
depends on them.) -/
def pyInt (cs : List Char) : Option Int :=
  match pyStrip cs with
  | [] => none
  | '-' :: ds =>
    if !ds.isEmpty && ds.all Char.isDigit then some (-(digitsVal ds : Int)) else none
  | '+' :: ds =>
    if !ds.isEmpty && ds.all Char.isDigit then some ((digitsVal ds : Int)) else none
  | ds =>
    if ds.all Char.isDigit then some ((digitsVal ds : Int)) else none

/-- The `\N` null language marker of the dump file (line 110 compares the
language field against the two-character string backslash-N). -/
def nullMarker : List Char := ['\\', 'N']

/-- Accumulator / table key: `(lang, ngram)`, mirroring the nesting
`lang_ngram_cnt[lang][ngram]`. -/
abbrev Key := List Char × List Char

/-- One iteration of the line loop of `RawTatodetectDB.count` up to the
filters (lines 102-114): split the rstripped line on tabs and unpack the
first four fields (fewer than four raises an uncaught `ValueError`: the
`except IndexError` at line 105 does not catch it), skip the line when the
language is the null marker or empty, parse the sentence id with `int`
(uncaught `ValueError` when non-numeric) and skip the line when the id is
blacklisted.  Returns the admitted record `(lang, text, user)`, or `none`
for a skipped line. -/
def processLine (sentence_blacklist : List Int) (line : List Char) :
    Except String (Option (List Char × List Char × List Char)) :=
  match splitTab (pyRstrip line) with
  | sent_id :: lang :: text :: user :: _ =>
    if lang = nullMarker ∨ lang = [] then .ok none
    else
      match pyInt sent_id with
      | none => .error "ValueError: invalid literal for int"
      | some i =>
        if i ∈ sentence_blacklist then .ok none
        else .ok (some (lang, text, user))
  | _ => .error "ValueError: not enough values to unpack"

/-- The sliding windows of length `n` of a text: `text[i : i + n]` for
`i in range(len(text) - n + 1)` (lines 121-122).  Python's `range` of a
non-positive bound is empty, which truncated subtraction reproduces. -/
def ngramWindows (n : Nat) (text : List Char) : List (List Char) :=
  (List.range (text.length + 1 - n)).map (fun i => (text.drop i).take n)

/-- The multiset of `(lang, ngram)` hits contributed by one admitted record
(the inner loop of lines 120-125, ignoring the flush bookkeeping). -/
def lineNgrams (n : Nat) (lang text : List Char) : Multiset Key :=
  ((ngramWindows n text).map (fun g => (lang, g)) : List Key)

/-- Total `(lang, ngram)` hit multiset of a list of corpus lines for one
n-gram size, blacklist applied, flushes ignored (`.error` lines contribute
nothing here; they make the whole pass abort in the full model). -/
def corpusNgrams (n : Nat) (bl : List Int) : List (List Char) → Multiset Key
  | [] => 0
  | line :: rest =>
    match processLine bl line with
    | .ok (some (lang, text, _)) => lineNgrams n lang text + corpusNgrams n bl rest
    | _ => corpusNgrams n bl rest

/-- Number of valid `n`-length sliding windows `max 0 (len(text) - n + 1)`
contributed by one line to language `lang`: zero unless the line is admitted
with that language. -/
def admittedWindows (n : Nat) (bl : List Int) (lang : List Char)
    (line : List Char) : Nat :=
  match processLine bl line with
  | .ok (some (l, text, _)) =>
    if l = lang then (max 0 ((text.length : Int) - n + 1)).toNat else 0
  | _ => 0

/-- The mutable state of `RawTatodetectDB.count` that lives OUTSIDE the
per-size pass loop (lines 93-95): the distinct-entry counter `tot_ngrams`,
the calibrated batch target `peak_tot_ngrams`, the user contribution scores,
plus the number of calls made so far to the external memory probe. -/
structure CalibState where
  tot_ngrams : Nat
  peak_tot_ngrams : Option Nat
  memCalls : Nat
  user_lang_score : Multiset (List Char × List Char)
deriving DecidableEq

/-- Decidable equality for the result type of the counting phase (instance
search does not find the composite on its own). -/
instance instDecEqCountResult : DecidableEq (List (Nat × Multiset Key) × CalibState) :=
  @instDecidableEqProd _ _ inferInstance inferInstance

/-- Lines 121-125: insert the windows of one record into the accumulator one
by one, incrementing `tot_ngrams` for every key not already present
(`if ngram not in lang_ngram_cnt[lang]`). -/
def addWindows (buffer : Multiset Key) (tot : Nat) : List Key → Multiset Key × Nat
  | [] => (buffer, tot)
  | k :: ks =>
    addWindows (buffer + {k}) (if buffer.count k = 0 then tot + 1 else tot) ks

/-- Lines 127-138: the flush decision taken after each admitted record.
While `peak_tot_ngrams is None` the memory oracle is consulted (one call) and
a flush is triggered when the reading reaches `max_memory`; once calibrated,
a flush is triggered when `tot_ngrams` reaches the target and the oracle is
never consulted again.  A flush merge-adds the buffer into the table, clears
the buffer, records `tot_ngrams` as the new target and zeroes it. -/
def stepFlush (mem : Nat → Nat) (max_memory : Nat) (buffer table : Multiset Key)
    (cs : CalibState) : Multiset Key × Multiset Key × CalibState :=
  match cs.peak_tot_ngrams with
  | none =>
    let reading := mem cs.memCalls
    let cs1 := { cs with memCalls := cs.memCalls + 1 }
    if max_memory ≤ reading then
      (0, table + buffer,
        { cs1 with peak_tot_ngrams := some cs1.tot_ngrams, tot_ngrams := 0 })
    else (buffer, table, cs1)
  | some peak =>
    if peak ≤ cs.tot_ngrams then
      (0, table + buffer,
        { cs with peak_tot_ngrams := some cs.tot_ngrams, tot_ngrams := 0 })
    else (buffer, table, cs)

/-- Lines 116-138: processing of one admitted record: add `len(text)` to the
contributor score during the `MIN_NGRAM_SIZE` pass, insert the record's
windows, then take the flush decision. -/
def processRecord (mem : Nat → Nat) (max_memory n : Nat)
    (lang text user : List Char) (buffer table : Multiset Key)
    (cs : CalibState) : Multiset Key × Multiset Key × CalibState :=
  let cs1 :=
    if n = MIN_NGRAM_SIZE then
      { cs with user_lang_score :=
          cs.user_lang_score + Multiset.replicate text.length (user, lang) }
    else cs
  let bt := addWindows buffer cs1.tot_ngrams ((ngramWindows n text).map (fun g => (lang, g)))
  stepFlush mem max_memory bt.1 table { cs1 with tot_ngrams := bt.2 }

/-- The line loop of one pass (lines 100-143): process each line in order,
aborting on an uncaught exception; at end of file the remaining buffer is
merge-added into the table (line 143) and the accumulator goes out of scope
(a fresh `lang_ngram_cnt` is created at line 98 of the next pass), while
`tot_ngrams`, `peak_tot_ngrams` and the scores persist. -/
def runPassAux (mem : Nat → Nat) (max_memory n : Nat) (bl : List Int)
    (buffer table : Multiset Key) (cs : CalibState) :
    List (List Char) → Except String (Multiset Key × CalibState)
  | [] => .ok (table + buffer, cs)
  | line :: rest =>
    match processLine bl line with
    | .error e => .error e
    | .ok none => runPassAux mem max_memory n bl buffer table cs rest
    | .ok (some (lang, text, user)) =>
      let r := processRecord mem max_memory n lang text user buffer table cs
      runPassAux mem max_memory n bl r.1 r.2.1 r.2.2 rest

/-- One full pass of `RawTatodetectDB.count` for n-gram size `n`: the corpus
file is (re)opened and read in full, starting from an empty accumulator and
an empty `grams{n}` table, with calibration state `cs` carried in from the
preceding passes.  Returns the final content of the `grams{n}` table and the
outgoing calibration state. -/
def runPass (mem : Nat → Nat) (max_memory n : Nat) (bl : List Int)
    (lines : List (List Char)) (cs : CalibState) :
    Except String (Multiset Key × CalibState) :=
  runPassAux mem max_memory n bl 0 0 cs lines

/-- The pass loop of `RawTatodetectDB.count` over the given n-gram sizes,
threading the calibration state and collecting each pass's table. -/
def countAux (mem : Nat → Nat) (max_memory : Nat) (bl : List Int)
    (lines : List (List Char)) (cs : CalibState) :
    List Nat → Except String (List (Nat × Multiset Key) × CalibState)
  | [] => .ok ([], cs)
  | n :: ns =>
    match runPass mem max_memory n bl lines cs with
    | .error e => .error e
    | .ok tc =>
      match countAux mem max_memory bl lines tc.2 ns with
      | .error e => .error e
      | .ok rest => .ok ((n, tc.1) :: rest.1, rest.2)

/-- `RawTatodetectDB.count` (lines 61-148): one pass per size in `passSizes`
(descending, so the contributor scores are accumulated during the last,
`n = MIN_NGRAM_SIZE`, reading), starting from zeroed counters, no calibrated
target and empty scores.  Returns the per-size `grams{n}` tables and the
final state, whose `user_lang_score` is what `_insert_user_scores` writes to
the `users_langs` table. -/
def count (mem : Nat → Nat) (max_memory : Nat) (sentence_blacklist : List Int)
    (lines : List (List Char)) :
    Except String (List (Nat × Multiset Key) × CalibState) :=
  countAux mem max_memory sentence_blacklist lines ⟨0, none, 0, 0⟩ passSizes

/-- `RawTatodetectDB._upsert_ngram_hits` (lines 177-197): merge-add a flushed
buffer into a table; under the multiset representation,
`INSERT … ON CONFLICT DO UPDATE SET hit = hit + :hits` is addition. -/
def upsertNgramHits (table delta : Multiset Key) : Multiset Key :=
  table + delta

/-- The n-gram count multiset of one batch of admitted records
`(lang, text)`, accumulated record by record as the counting loop does. -/
def countBatch (n : Nat) (batch : List (List Char × List Char)) : Multiset Key :=
  batch.foldl (fun acc r => acc + lineNgrams n r.1 r.2) 0

/-- The tags source handed to `get_sentences_with_tag`: no third CLI
argument (`tags_path` is `None`), a path to a missing file, or the lines of
an existing file. -/
inductive TagsSource
  | absent
  | missing
  | present (lines : List (List Char))
deriving DecidableEq

/-- Loop body fold of `get_sentences_with_tag` (lines 354-364): each line is
rstripped and split on tabs and unpacked into exactly two fields (any other
arity raises an uncaught `ValueError`; the `except IndexError` at line 361
does not catch it); when the tag matches, the sentence id is parsed with
`int` (uncaught `ValueError` when non-numeric) and added to the set. -/
def tagLineStep (tag_name : List Char) (acc : List Int) (line : List Char) :
    Except String (List Int) :=
  match splitTab (pyRstrip line) with
  | [sentence_id, tag] =>
    if tag = tag_name then
      match pyInt sentence_id with
      | none => .error "ValueError: invalid literal for int"
      | some i => .ok (acc ++ [i])
    else .ok acc
  | _ => .error "ValueError: unpack"

/-- Fold `tagLineStep` over the lines of the tags file. -/
def tagLinesFold (tag_name : List Char) (acc : List Int) :
    List (List Char) → Except String (List Int)
  | [] => .ok acc
  | line :: rest =>
    match tagLineStep tag_name acc line with
    | .error e => .error e
    | .ok acc1 => tagLinesFold tag_name acc1 rest

/-- `get_sentences_with_tag` (lines 339-364): `open(None)` raises an
uncaught `TypeError` when the CLI argument is absent, `open` on a missing
path raises an uncaught `FileNotFoundError`, and each line is processed by
`tagLineStep`; only `IndexError` is caught, and nothing in the body raises
`IndexError`, so every failure aborts the run. -/
def get_sentences_with_tag (src : TagsSource) (tag_name : List Char) :
    Except String (List Int) :=
  match src with
  | .absent => .error "TypeError: expected str, bytes or os.PathLike object, not NoneType"
  | .missing => .error "FileNotFoundError"
  | .present lines => tagLinesFold tag_name [] lines

/-- Per-language total hit count `lang_ngram_tots` of the extraction query
(lines 271-277): `SELECT lang, SUM(hit) … GROUP BY lang` over the raw
`grams{n}` rows `(gram, lang, hit)`. -/
def langTotal (rows : List (String × String × Nat)) (lang : String) : Nat :=
  ((rows.filter (fun r => r.2.1 = lang)).map (fun r => r.2.2)).sum

/-- The `CASE WHEN lang IN (…ideogram langs…) THEN … ELSE … END` threshold of
the extraction query (lines 278-284). -/
def freqThreshold (lang : String) : ℚ :=
  if lang ∈ IDEOGRAM_LANGS then IDEOGRAM_NGRAM_FREQ_LIMIT else NGRAM_FREQ_LIMIT

/-- The n-gram transfer query of `TatodetectDB.extract_key_content_from`
(lines 262-285): every raw row `(gram, lang, hit)` is joined with its
language total, extended with `percent = hit / tot`, and kept iff `percent`
strictly exceeds the class threshold. -/
def extractKeyNgrams (rows : List (String × String × Nat)) :
    List (String × String × Nat × ℚ) :=
  (rows.map (fun r => (r.1, r.2.1, r.2.2, (r.2.2 : ℚ) / (langTotal rows r.2.1 : ℚ)))).filter
    (fun e => freqThreshold e.2.1 < e.2.2.2)

/-- The contributor transfer query of `TatodetectDB.extract_key_content_from`
(lines 289-296): keep a `(user, lang, total)` row iff
`total > MIN_USER_CONTRIB_IN_LANG`. -/
def extractKeyUsers (rows : List (String × String × Nat)) :
    List (String × String × Nat) :=
  rows.filter (fun r => MIN_USER_CONTRIB_IN_LANG < r.2.2)

/-! ## Helper lemmas -/

/-- Inserting a list of keys one by one is multiset addition. -/
theorem addWindows_fst (ks : List Key) :
    ∀ (buffer : Multiset Key) (tot : Nat), (addWindows buffer tot ks).1 = buffer + ↑ks := by
  induction ks with
  | nil => intro buffer tot; simp [addWindows]
  | cons k ks ih =>
    intro buffer tot
    rw [addWindows, ih, ← Multiset.cons_coe, ← Multiset.singleton_add, add_assoc]

/-- A flush decision moves counts between buffer and table but never
creates or destroys any: `table' + buffer' = table + buffer`. -/
theorem stepFlush_table_add_buffer (mem : Nat → Nat) (mm : Nat)
    (buffer table : Multiset Key) (cs : CalibState) :
    (stepFlush mem mm buffer table cs).2.1 + (stepFlush mem mm buffer table cs).1
      = table + buffer := by
  unfold stepFlush
  cases cs.peak_tot_ngrams <;> dsimp only <;> split <;> simp

/-- Processing one admitted record adds exactly its window hits to the
combined buffer-plus-table content. -/
theorem processRecord_table_add_buffer (mem : Nat → Nat) (mm n : Nat)
    (lang text user : List Char) (buffer table : Multiset Key) (cs : CalibState) :
    (processRecord mem mm n lang text user buffer table cs).2.1
        + (processRecord mem mm n lang text user buffer table cs).1
      = table + buffer + lineNgrams n lang text := by
  unfold processRecord
  rw [stepFlush_table_add_buffer, addWindows_fst, lineNgrams, add_assoc]

/-- Whatever the flush timing, a completed pass leaves in its table the
incoming buffer and table content plus every hit of every admitted line. -/
theorem runPassAux_table (mem : Nat → Nat) (mm n : Nat) (bl : List Int)
    (lines : List (List Char)) :
    ∀ (buffer table : Multiset Key) (cs : CalibState) (tbl : Multiset Key)
      (cs' : CalibState),
      runPassAux mem mm n bl buffer table cs lines = .ok (tbl, cs') →
      tbl = table + buffer + corpusNgrams n bl lines := by
  induction lines with
  | nil =>
    intro buffer table cs tbl cs' h
    simp only [runPassAux] at h
    cases h
    simp [corpusNgrams]
  | cons line rest ih =>
    intro buffer table cs tbl cs' h
    rw [runPassAux] at h
    rw [corpusNgrams]
    cases hpl : processLine bl line with
    | error e => rw [hpl] at h; cases h
    | ok o =>
      rw [hpl] at h
      match o with
      | none => exact ih _ _ _ _ _ h
      | some (lang, text, user) =>
        have htbl := ih _ _ _ _ _ h
        rw [htbl, ← add_assoc, processRecord_table_add_buffer, add_assoc]

/-- A completed pass computes exactly the blacklist-filtered hit multiset of
the corpus, independently of the memory oracle and the incoming
calibration. -/
theorem runPass_table (mem : Nat → Nat) (mm n : Nat) (bl : List Int)
    (lines : List (List Char)) (cs : CalibState) (tbl : Multiset Key)
    (cs' : CalibState) (h : runPass mem mm n bl lines cs = .ok (tbl, cs')) :
    tbl = corpusNgrams n bl lines := by
  have := runPassAux_table mem mm n bl lines 0 0 cs tbl cs' h
  simpa using this

/-- Every table produced by the pass loop is the total hit multiset for its
size. -/
theorem countAux_tables (mem : Nat → Nat) (mm : Nat) (bl : List Int)
    (lines : List (List Char)) :
    ∀ (ns : List Nat) (cs : CalibState) (tables : List (Nat × Multiset Key))
      (cs' : CalibState),
      countAux mem mm bl lines cs ns = .ok (tables, cs') →
      ∀ (n : Nat) (tbl : Multiset Key), (n, tbl) ∈ tables →
        tbl = corpusNgrams n bl lines := by
  intro ns
  induction ns with
  | nil =>
    intro cs tables cs' h n tbl hmem
    simp only [countAux] at h
    cases h
    simp at hmem
  | cons m ms ih =>
    intro cs tables cs' h n tbl hmem
    rw [countAux] at h
    cases hrp : runPass mem mm m bl lines cs with
    | error e => rw [hrp] at h; cases h
    | ok tc =>
      rw [hrp] at h
      dsimp only at h
      cases hca : countAux mem mm bl lines tc.2 ms with
      | error e => rw [hca] at h; cases h
      | ok rest =>
        rw [hca] at h
        dsimp only at h
        rw [Except.ok.injEq, Prod.mk.injEq] at h
        obtain ⟨h1, h2⟩ := h
        subst h1
        rcases List.mem_cons.mp hmem with heq | htail
        · obtain ⟨he1, he2⟩ := Prod.mk.injEq .. ▸ heq
          subst he1
          rw [he2]
          exact runPass_table mem mm n bl lines cs tc.1 tc.2 (by rw [hrp])
        · exact ih tc.2 rest.1 rest.2 (by rw [hca]) n tbl htail

/-- Filtering a constant-first-component key list by first component. -/
theorem filter_fst_length (ws : List (List Char)) (l lang : List Char) :
    ((ws.map (fun g => (l, g))).filter
        (fun k : Key => decide (k.1 = lang))).length
      = if l = lang then ws.length else 0 := by
  induction ws with
  | nil => simp
  | cons w ws ih =>
    by_cases h : l = lang
    · subst h
      simp [List.filter_cons, ih]
    · simp [List.filter_cons, h, ih]

/-- The number of sliding windows is `len + 1 - n` (truncated). -/
theorem ngramWindows_length (n : Nat) (text : List Char) :
    (ngramWindows n text).length = text.length + 1 - n := by
  simp [ngramWindows]

/-- The hits of one admitted record restricted to a language: the number of
valid windows when the record's language matches, zero otherwise. -/
theorem lineNgrams_filter_card (n : Nat) (l text lang : List Char) :
    (Multiset.filter (fun k : Key => k.1 = lang) (lineNgrams n l text)).card
      = if l = lang then (max 0 ((text.length : Int) - n + 1)).toNat else 0 := by
  rw [lineNgrams, Multiset.filter_coe, Multiset.coe_card, filter_fst_length,
    ngramWindows_length]
  have : text.length + 1 - n = (max 0 ((text.length : Int) - n + 1)).toNat := by omega
  rw [this]

/-- Per-language hit total of the corpus multiset = sum of per-line admitted
window counts. -/
theorem corpusNgrams_filter_card (n : Nat) (bl : List Int) (lang : List Char) :
    ∀ lines : List (List Char),
      (Multiset.filter (fun k : Key => k.1 = lang) (corpusNgrams n bl lines)).card
        = (lines.map (admittedWindows n bl lang)).sum := by
  intro lines
  induction lines with
  | nil => simp [corpusNgrams]
  | cons line rest ih =>
    rw [List.map_cons, List.sum_cons, corpusNgrams, admittedWindows]
    cases hpl : processLine bl line with
    | error e => simpa using ih
    | ok o =>
      match o with
      | none => simpa using ih
      | some (l, text, user) =>
        rw [Multiset.filter_add, Multiset.card_add, ih, lineNgrams_filter_card]

/-- `foldl` of pointwise addition over a mapped list is the sum. -/
theorem foldl_add_map {α : Type} (f : α → Multiset Key) :
    ∀ (l : List α) (init : Multiset Key),
      l.foldl (fun acc x => acc + f x) init = init + (l.map f).sum := by
  intro l
  induction l with
  | nil => intro init; simp
  | cons x xs ih => intro init; simp [ih, add_assoc]

/-- `countBatch` as a sum over the batch. -/
theorem countBatch_eq_sum (n : Nat) (batch : List (List Char × List Char)) :
    countBatch n batch = (batch.map (fun r => lineNgrams n r.1 r.2)).sum := by
  rw [countBatch, foldl_add_map, zero_add]

/-- The calibrated state survives a flush decision: once `peak_tot_ngrams`
is set, the memory oracle is not consulted and the target stays set. -/
theorem stepFlush_calibrated (mem : Nat → Nat) (mm : Nat)
    (buffer table : Multiset Key) (cs : CalibState) (p : Nat)
    (h : cs.peak_tot_ngrams = some p) :
    (stepFlush mem mm buffer table cs).2.2.memCalls = cs.memCalls
      ∧ ∃ q, (stepFlush mem mm buffer table cs).2.2.peak_tot_ngrams = some q := by
  unfold stepFlush
  rw [h]
  dsimp only
  split <;> simp [h]

/-- The calibrated state survives the processing of one record. -/
theorem processRecord_calibrated (mem : Nat → Nat) (mm n : Nat)
    (lang text user : List Char) (buffer table : Multiset Key)
    (cs : CalibState) (p : Nat) (h : cs.peak_tot_ngrams = some p) :
    (processRecord mem mm n lang text user buffer table cs).2.2.memCalls = cs.memCalls
      ∧ ∃ q,
        (processRecord mem mm n lang text user buffer table cs).2.2.peak_tot_ngrams
          = some q := by
  unfold processRecord
  split <;> exact stepFlush_calibrated _ _ _ _ _ p (by simpa using h)

/-- The calibrated state survives a whole pass. -/
theorem runPassAux_calibrated (mem : Nat → Nat) (mm n : Nat) (bl : List Int)
    (lines : List (List Char)) :
    ∀ (buffer table : Multiset Key) (cs : CalibState) (p : Nat)
      (tbl : Multiset Key) (cs' : CalibState),
      cs.peak_tot_ngrams = some p →
      runPassAux mem mm n bl buffer table cs lines = .ok (tbl, cs') →
      cs'.memCalls = cs.memCalls ∧ ∃ q, cs'.peak_tot_ngrams = some q := by
  induction lines with
  | nil =>
    intro buffer table cs p tbl cs' hp h
    simp only [runPassAux] at h
    cases h
    exact ⟨rfl, p, hp⟩
  | cons line rest ih =>
    intro buffer table cs p tbl cs' hp h
    rw [runPassAux] at h
    cases hpl : processLine bl line with
    | error e => rw [hpl] at h; cases h
    | ok o =>
      rw [hpl] at h
      match o with
      | none => exact ih _ _ _ p _ _ hp h
      | some (lang, text, user) =>
        obtain ⟨hmc, q, hq⟩ :=
          processRecord_calibrated mem mm n lang text user buffer table cs p hp
        obtain ⟨hmc', hq'⟩ := ih _ _ _ q _ _ hq h
        exact ⟨hmc' ▸ hmc, hq'⟩

/-! ## Claims -/

/-- C1: after a completed counting run, the sum of hit counts stored in the
`grams{n}` table for a fixed language equals the total number of valid
`n`-length sliding windows, `max 0 (len(text) - n + 1)`, summed over all
admitted lines of that language — whatever the memory oracle, ceiling,
blacklist and corpus. -/
theorem C1_hit_sum_eq_window_sum (mem : Nat → Nat) (max_memory : Nat)
    (bl : List Int) (lines : List (List Char))
    (tables : List (Nat × Multiset Key)) (cs : CalibState) (n : Nat)
    (tbl : Multiset Key) (lang : List Char)
    (hrun : count mem max_memory bl lines = .ok (tables, cs))
    (hmem : (n, tbl) ∈ tables) :
    (Multiset.filter (fun k : Key => k.1 = lang) tbl).card
      = (lines.map (admittedWindows n bl lang)).sum := by
  have := countAux_tables mem max_memory bl lines passSizes ⟨0, none, 0, 0⟩
    tables cs hrun n tbl hmem
  rw [this]
  exact corpusNgrams_filter_card n bl lang lines

/-- Witness for C1 on the one-line corpus `1\teng\tab\tu1`. -/
theorem C1_hit_sum_eq_window_sum_witness :
    (Multiset.filter (fun k : Key => k.1 = ['e', 'n', 'g'])
        ({(['e', 'n', 'g'], ['a', 'b'])} : Multiset Key)).card
      = (["1\teng\tab\tu1".data].map (admittedWindows 2 [] ['e', 'n', 'g'])).sum :=
  C1_hit_sum_eq_window_sum (fun _ => 0) 500 [] ["1\teng\tab\tu1".data]
    [(5, 0), (4, 0), (3, 0), (2, {(['e', 'n', 'g'], ['a', 'b'])})]
    ⟨1, none, 4, Multiset.replicate 2 (['u', '1'], ['e', 'n', 'g'])⟩ 2
    {(['e', 'n', 'g'], ['a', 'b'])} ['e', 'n', 'g'] (by decide) (by decide)

/-- C2: splitting a corpus of admitted records into any list of flush
batches and merge-adding the per-batch counts into the (initially empty)
store yields exactly the counts of processing the concatenated corpus as a
single batch: final counts are independent of flush timing. -/
theorem C2_flush_partition_independent (n : Nat)
    (batches : List (List (List Char × List Char))) :
    (batches.map (countBatch n)).foldl upsertNgramHits 0
      = countBatch n batches.flatten := by
  have h1 : (batches.map (countBatch n)).foldl upsertNgramHits 0
      = ((batches.map (countBatch n)).map id).sum := by
    rw [show upsertNgramHits = fun t d => t + id d from rfl, foldl_add_map, zero_add]
  rw [h1, List.map_id, countBatch_eq_sum, List.map_flatten, List.sum_flatten,
    List.map_map]
  exact congrArg List.sum (List.map_congr_left fun b _ => (countBatch_eq_sum n b).trans rfl)

/-- C3 is REFUTED: flush calibration is NOT per pass.  `tot_ngrams` and
`peak_tot_ngrams` are initialized once, before the pass loop (lines 93-94),
so the target calibrated by the first pass's flush carries into the later
passes.  On the one-line corpus `1\teng\tabcde\tu1` with an always-high
memory oracle, the first (`n = 5`) pass ends with `peak_tot_ngrams = some 1`
already set (first conjunct), and across the whole four-pass run the memory
probe is consulted exactly once (`memCalls = 1`, second conjunct) even
though each of the four passes processes an admitted record and flushes —
under the claimed per-pass recalibration each pass would have probed memory
after its first record, giving at least four calls, and each pass would
have started with no calibrated target. -/
theorem C3_counterexample :
    runPass (fun _ => 1000) 500 5 [] ["1\teng\tabcde\tu1".data] ⟨0, none, 0, 0⟩
        = .ok ({(['e', 'n', 'g'], ['a', 'b', 'c', 'd', 'e'])}, ⟨0, some 1, 1, 0⟩)
      ∧ count (fun _ => 1000) 500 [] ["1\teng\tabcde\tu1".data]
          = .ok ([(5, {(['e', 'n', 'g'], ['a', 'b', 'c', 'd', 'e'])}),
                  (4, {(['e', 'n', 'g'], ['a', 'b', 'c', 'd']),
                       (['e', 'n', 'g'], ['b', 'c', 'd', 'e'])}),
                  (3, {(['e', 'n', 'g'], ['a', 'b', 'c']),
                       (['e', 'n', 'g'], ['b', 'c', 'd']),
                       (['e', 'n', 'g'], ['c', 'd', 'e'])}),
                  (2, {(['e', 'n', 'g'], ['a', 'b']), (['e', 'n', 'g'], ['b', 'c']),
                       (['e', 'n', 'g'], ['c', 'd']), (['e', 'n', 'g'], ['d', 'e'])})],
                 ⟨0, some 4, 1, Multiset.replicate 5 (['u', '1'], ['e', 'n', 'g'])⟩) := by
  decide

/-- C3 amended: calibration is global to the run, not per pass.  Once some
flush (in any pass) has set `peak_tot_ngrams`, every later pass starts
already calibrated: the memory probe is never consulted again
(`memCalls` unchanged) and a target remains recorded throughout. -/
theorem C3_amended_calibration_is_global (mem : Nat → Nat) (max_memory n : Nat)
    (bl : List Int) (lines : List (List Char)) (cs : CalibState) (p : Nat)
    (tbl : Multiset Key) (cs' : CalibState)
    (hpeak : cs.peak_tot_ngrams = some p)
    (hrun : runPass mem max_memory n bl lines cs = .ok (tbl, cs')) :
    cs'.memCalls = cs.memCalls ∧ ∃ q, cs'.peak_tot_ngrams = some q :=
  runPassAux_calibrated mem max_memory n bl lines 0 0 cs p tbl cs' hpeak hrun

/-- Witness for the amended C3: a pass entered with a calibrated target
(`peak_tot_ngrams = some 2`, `memCalls = 7`) never probes memory. -/
theorem C3_amended_calibration_is_global_witness :
    ((⟨0, some 2, 7, 0⟩ : CalibState) : CalibState).memCalls
        = ((⟨0, some 2, 7, 0⟩ : CalibState) : CalibState).memCalls
      ∧ ∃ q, ((⟨0, some 2, 7, 0⟩ : CalibState) : CalibState).peak_tot_ngrams = some q :=
  C3_amended_calibration_is_global (fun _ => 1000) 500 3 [] ["1\teng\tab\tu1".data]
    ⟨0, some 2, 7, 0⟩ 2 0 ⟨0, some 2, 7, 0⟩ (by decide) (by decide)

/-- C4 (code bug evaluation): a line with fewer than four tab-separated
fields does NOT get skipped: tuple unpacking raises `ValueError`, the
handler at line 105 catches only `IndexError`, and the whole run aborts
before ever reaching the second (well-formed) line. -/
theorem C4_malformed_line_aborts :
    count (fun _ => 0) 500 [] ["1\teng\tab".data, "2\teng\tcd\tu1".data]
      = .error "ValueError: not enough values to unpack" := by
  decide

/-- C5 is REFUTED: the counting phase does not perform five passes. -/
theorem C5_counterexample : ¬ passSizes.length = 5 := by decide

/-- C5 amended: the counting phase reopens and fully reads the corpus once
per n-gram size, performing FOUR full passes in total, one per n-gram
length counted (`n = 5, 4, 3, 2`, in descending order). -/
theorem C5_amended_four_passes :
    passSizes = [5, 4, 3, 2] ∧ passSizes.length = 4 ∧ passSizes.Nodup := by
  decide

/-- C6: a raw `(gram, lang, hit)` row survives key-content extraction iff
its relative frequency `hit / language_total` strictly exceeds the
threshold of its language class — `0.000005` for the ideogram set
`{wuu, yue, cmn}`, `0.00001` for every other language — and a row whose
frequency equals its threshold exactly is excluded. -/
theorem C6_ngram_frequency_threshold (rows : List (String × String × Nat))
    (g l : String) (h : Nat) (p : ℚ) :
    ((g, l, h, p) ∈ extractKeyNgrams rows ↔
        ((g, l, h) ∈ rows ∧ p = (h : ℚ) / (langTotal rows l : ℚ) ∧
          (if l ∈ ["wuu", "yue", "cmn"] then (5 : ℚ) / 1000000 else (1 : ℚ) / 100000)
            < p))
      ∧ ((h : ℚ) / (langTotal rows l : ℚ)
            = (if l ∈ ["wuu", "yue", "cmn"] then (5 : ℚ) / 1000000 else (1 : ℚ) / 100000) →
          (g, l, h, (h : ℚ) / (langTotal rows l : ℚ)) ∉ extractKeyNgrams rows) := by
  have hiff : ∀ p' : ℚ, ((g, l, h, p') ∈ extractKeyNgrams rows ↔
      ((g, l, h) ∈ rows ∧ p' = (h : ℚ) / (langTotal rows l : ℚ) ∧
        freqThreshold l < p')) := by
    intro p'
    simp only [extractKeyNgrams, List.mem_filter, List.mem_map, decide_eq_true_eq,
      Prod.mk.injEq]
    constructor
    · rintro ⟨⟨⟨g1, l1, h1⟩, hr, hg, hl, hh, hp⟩, hlt⟩
      subst hg
      subst hl
      subst hh
      subst hp
      exact ⟨hr, rfl, hlt⟩
    · rintro ⟨hr, hp, hlt⟩
      subst hp
      exact ⟨⟨(g, l, h), hr, rfl, rfl, rfl, rfl⟩, hlt⟩
  have hthr : freqThreshold l
      = (if l ∈ ["wuu", "yue", "cmn"] then (5 : ℚ) / 1000000 else (1 : ℚ) / 100000) := rfl
  refine ⟨by rw [← hthr]; exact hiff p, ?_⟩
  intro heq hmem
  have hlt := ((hiff _).mp hmem).2.2
  rw [heq, ← hthr] at hlt
  exact lt_irrefl _ hlt

/-- Witness for C6: the sole 2-gram of a one-row raw table has relative
frequency 1 and is kept. -/
theorem C6_ngram_frequency_threshold_witness :
    ("ab", "eng", 1, (1 : ℚ)) ∈ extractKeyNgrams [("ab", "eng", 1)] :=
  (C6_ngram_frequency_threshold [("ab", "eng", 1)] "ab" "eng" 1 1).1.mpr
    ⟨by simp, by norm_num [langTotal, List.filter], by rw [if_neg (by simp)]; norm_num⟩

/-- C7: a `(user, lang, total)` row is copied to the final store iff
`total` strictly exceeds `MIN_USER_CONTRIB_IN_LANG = 100`; a row at exactly
100 is excluded and a row at 101 is included. -/
theorem C7_contributor_threshold (rows : List (String × String × Nat))
    (u l : String) (t : Nat) :
    ((u, l, t) ∈ extractKeyUsers rows ↔ ((u, l, t) ∈ rows ∧ 100 < t))
      ∧ ((u, l, 100) ∉ extractKeyUsers rows)
      ∧ ((u, l, 101) ∈ rows → (u, l, 101) ∈ extractKeyUsers rows) := by
  have hmem : ∀ t' : Nat,
      ((u, l, t') ∈ extractKeyUsers rows ↔ ((u, l, t') ∈ rows ∧ 100 < t')) := by
    intro t'
    simp [extractKeyUsers, List.mem_filter, MIN_USER_CONTRIB_IN_LANG]
  exact ⟨hmem t, fun hc => absurd ((hmem 100).mp hc).2 (by omega),
    fun hr => (hmem 101).mpr ⟨hr, by omega⟩⟩

/-- Witness for C7: a contributor one character above the threshold is
kept. -/
theorem C7_contributor_threshold_witness :
    ("u1", "eng", 101) ∈ extractKeyUsers [("u1", "eng", 101)] :=
  (C7_contributor_threshold [("u1", "eng", 101)] "u1" "eng" 101).2.2 (by simp)

/-- C8 (code bug evaluation): blacklist loading does NOT degrade to an
empty set.  A missing tags file (`FileNotFoundError` from `open`), an
absent third CLI argument (`open(None)` raises `TypeError`), and a
malformed line (unpacking into two fields raises `ValueError`) all abort
the run: the handler at line 361 catches only `IndexError`, which nothing
in the body raises. -/
theorem C8_blacklist_failure_aborts :
    get_sentences_with_tag .missing "@change flag".data = .error "FileNotFoundError"
      ∧ get_sentences_with_tag .absent "@change flag".data
          = .error "TypeError: expected str, bytes or os.PathLike object, not NoneType"
      ∧ get_sentences_with_tag (.present ["123".data]) "@change flag".data
          = .error "ValueError: unpack"
      ∧ get_sentences_with_tag (.present ["123\t@change flag".data]) "@change flag".data
          = .ok [123] := by
  decide

/-- C9: on the three-line corpus `(1, eng, ab, u1)`, `(2, eng, ab, u1)`,
`(3, \N, xx, u2)` with an empty blacklist, the n = 2 table holds exactly
one row, `("ab", "eng")` with hit count 2; the n = 3, 4, 5 tables are
empty; sentence 3 (null-marker language) contributes nothing anywhere; and
the contributor table holds exactly `("u1", "eng")` with total 4. -/
theorem C9_end_to_end :
    count (fun _ => 0) 500 []
        ["1\teng\tab\tu1".data, "2\teng\tab\tu1".data, "3\t\\N\txx\tu2".data]
      = .ok ([(5, 0), (4, 0), (3, 0),
              (2, Multiset.replicate 2 (['e', 'n', 'g'], ['a', 'b']))],
             ⟨1, none, 8, Multiset.replicate 4 (['u', '1'], ['e', 'n', 'g'])⟩) := by
  decide

/-- C10: a line with at least four tab-separated fields and a non-null,
non-empty language whose first field does not parse as an integer raises an
uncaught `ValueError` at the blacklist-membership check `int(sent_id)`:
the line is not skipped, and a counting run on any corpus beginning with
such a line aborts with that error whatever the memory oracle, ceiling and
remaining lines. -/
theorem C10_unparsable_id_aborts (bl : List Int)
    (line sent_id lang text user : List Char) (restf : List (List Char))
    (hsplit : splitTab (pyRstrip line) = sent_id :: lang :: text :: user :: restf)
    (hlang1 : lang ≠ nullMarker) (hlang2 : lang ≠ [])
    (hid : pyInt sent_id = none) :
    processLine bl line = .error "ValueError: invalid literal for int"
      ∧ ∀ (mem : Nat → Nat) (max_memory : Nat) (rest : List (List Char)),
          count mem max_memory bl (line :: rest)
            = .error "ValueError: invalid literal for int" := by
  have hpl : processLine bl line = .error "ValueError: invalid literal for int" := by
    rw [processLine, hsplit]
    dsimp only
    rw [if_neg (by simp [hlang1, hlang2]), hid]
  refine ⟨hpl, fun mem max_memory rest => ?_⟩
  have hps : passSizes = [5, 4, 3, 2] := by decide
  rw [count, hps, countAux, runPass, runPassAux, hpl]

/-- Witness for C10 on the line `abc\teng\thello\tu1`. -/
theorem C10_unparsable_id_aborts_witness :
    processLine [] "abc\teng\thello\tu1".data
        = .error "ValueError: invalid literal for int"
      ∧ count (fun _ => 0) 500 [] ["abc\teng\thello\tu1".data]
          = .error "ValueError: invalid literal for int" := by
  obtain ⟨h1, h2⟩ := C10_unparsable_id_aborts [] "abc\teng\thello\tu1".data
    ['a', 'b', 'c'] ['e', 'n', 'g'] ['h', 'e', 'l', 'l', 'o'] ['u', '1'] []
    (by decide) (by decide) (by decide) (by decide)
  exact ⟨h1, h2 (fun _ => 0) 500 []⟩

end Tatodetect
